import Mathlib

/-!
Verification of the cross-compilation project model of cheribuild
(`pycheribuild/projects/llvm.py` and
`pycheribuild/projects/cross/crosscompileproject.py`).

The Python code is shallowly embedded: strings are `String`/`List Char`,
filesystem paths are component lists, the mutable per-project attributes
become a `structure`, and fallible steps return `Except`/an outcome
inductive.  Each definition mirrors one Python function or code block.
-/

namespace Cheribuild

/-! ### List-of-characters utilities

These model the Python `bytes`/`str` primitives used by the source:
prefix test, substring test (`pat in text`), and `str.replace`
(leftmost, non-overlapping, replace-all). -/

/-- `stripLead pat s` models matching the literal `pat` at the start of `s`:
`some rest` on success. -/
def stripLead : List Char → List Char → Option (List Char)
  | [], s => some s
  | _ :: _, [] => none
  | p :: ps, c :: cs => if p = c then stripLead ps cs else none

/-- `occursIn pat t` models Python `pat in t` (substring containment). -/
def occursIn (pat : List Char) : List Char → Bool
  | [] => (stripLead pat []).isSome
  | c :: cs => (stripLead pat (c :: cs)).isSome || occursIn pat cs

/-! ### Version Gate (`BuildLLVM.checkClangVersion`, llvm.py lines 92-104)

The regex `clang version (\d+)\.(\d+)\.?(\d+)?` is embedded as a
hand-rolled leftmost-match scanner: at each position try to match the
literal `"clang version "`, then a maximal nonempty digit run, a dot,
a second maximal nonempty digit run, then optionally a dot and an
optional third digit run (the optional third capture group). -/

def digitsToNat (ds : List Char) : Nat :=
  List.foldl (fun n c => 10 * n + (c.toNat - 48)) 0 ds

/-- Match the clang-version pattern anchored at the head of `cs`;
the third component is `none` when the optional patch group did not
participate in the match (as in `"clang version 3.9"`). -/
def matchClangVersionAt (cs : List Char) : Option (Nat × Nat × Option Nat) :=
  match stripLead "clang version ".data cs with
  | none => none
  | some r1 =>
    let d1 := r1.takeWhile Char.isDigit
    let r2 := r1.dropWhile Char.isDigit
    if d1 = [] then none else
    match r2 with
    | '.' :: r3 =>
      let d2 := r3.takeWhile Char.isDigit
      let r4 := r3.dropWhile Char.isDigit
      if d2 = [] then none else
      match r4 with
      | '.' :: r5 =>
        let d3 := r5.takeWhile Char.isDigit
        some (digitsToNat d1, digitsToNat d2,
              if d3 = [] then none else some (digitsToNat d3))
      | _ => some (digitsToNat d1, digitsToNat d2, none)
    | _ => none

/-- `re.search`: leftmost position at which the whole pattern matches. -/
def searchClangVersion : List Char → Option (Nat × Nat × Option Nat)
  | [] => none
  | c :: cs =>
    match matchClangVersionAt (c :: cs) with
    | some r => some r
    | none => searchClangVersion cs

/-- Python tuple `<` on 3-tuples (lexicographic). -/
def versionTupleLt (a b : Nat × Nat × Nat) : Bool :=
  a.1 < b.1 || (a.1 = b.1 && (a.2.1 < b.2.1 || (a.2.1 = b.2.1 && a.2.2 < b.2.2)))

/-- `".".join(map(str, versionComponents))`. -/
def versionStr (v : Nat × Nat × Nat) : String :=
  toString v.1 ++ "." ++ toString v.2.1 ++ "." ++ toString v.2.2

/-- The hardcoded diagnostic suffix passed to `dependencyError`
(llvm.py line 103); it names version 3.7 regardless of the requested
minimum version. -/
def tooOldSuffix : String := "is too old. Version 3.7 or newer is required."

/-- `clang37InstallHint` (llvm.py lines 75-85), generic branch (neither
FreeBSD nor Ubuntu detected); every branch of the hint names 3.7. -/
def clang37InstallHint : String :=
  "Try installing clang 3.7 or newer using your system package manager"

/-- Result of running `checkClangVersion`.  `typeErrorCrash` models the
uncaught Python `TypeError` raised by `tuple(map(int, match.groups()))`
when the optional third capture group is `None` (`int(None)` fails). -/
inductive CheckResult where
  | satisfied
  | missing (reason : String)
  | tooOld (found : Nat × Nat × Nat) (message : String) (remediation : String)
  | typeErrorCrash
  deriving DecidableEq, Repr

/-- `BuildLLVM.checkClangVersion` (llvm.py lines 92-104).  `hasClang`
models `self.cCompiler and self.cppCompiler` being resolvable; `probe`
is the stderr text of `clang -v`. -/
def checkClangVersion (hasClang : Bool) (probe : String)
    (major minor patch : Nat) : CheckResult :=
  if !hasClang then .missing "Could not find clang" else
  match searchClangVersion probe.data with
  | some (_, _, none) => .typeErrorCrash
  | r =>
    let versionComponents : Nat × Nat × Nat :=
      match r with
      | some (a, b, some c) => (a, b, c)
      | _ => (0, 0, 0)
    if versionTupleLt versionComponents (major, minor, patch) then
      .tooOld versionComponents (versionStr versionComponents ++ " " ++ tooOldSuffix)
        clang37InstallHint
    else
      .satisfied

/-- `BuildLLVM.checkSystemDependencies` (llvm.py lines 87-90): requires
clang version 3.7. -/
def llvmCheckSystemDependencies (hasClang : Bool) (probe : String) : CheckResult :=
  checkClangVersion hasClang probe 3 7 0

/-- `BuildLLD.checkSystemDependencies` (llvm.py lines 164-167): requires
clang version 3.8. -/
def lldCheckSystemDependencies (hasClang : Bool) (probe : String) : CheckResult :=
  checkClangVersion hasClang probe 3 8 0

/-! ### Filesystem paths (`pathlib.Path`)

A path is an absolute-flag plus a list of name components; this is the
fragment of `pathlib` used by the source (`/` joining, `str()`,
`relative_to`). -/

structure PyPath where
  absolute : Bool
  comps : List String
  deriving DecidableEq, Repr

/-- `p / name` (append one component). -/
def PyPath.child (p : PyPath) (name : String) : PyPath :=
  ⟨p.absolute, p.comps ++ [name]⟩

/-- `str(p)`. -/
def PyPath.toStr (p : PyPath) : String :=
  (if p.absolute then "/" else "") ++ String.intercalate "/" p.comps

/-- `p.relative_to(base)`: `some` of the relative remainder when `base`
is an ancestor of `p`, `none` when `pathlib` would raise `ValueError`
(the spec's `ConfigurationError`). -/
def PyPath.relativeTo (p base : PyPath) : Option PyPath :=
  if p.absolute = base.absolute ∧ base.comps.isPrefixOf p.comps then
    some ⟨false, p.comps.drop base.comps.length⟩
  else none

/-! ### `CrossCompileProject` (crosscompileproject.py lines 19-72)

The class attributes and the attributes set by `__init__` become one
record.  `target` is the build-target registry name inherited from the
out-of-scope `Project` base class (set per project class, e.g.
`target = "lld"` in llvm.py line 135); it is distinct from the
`targetArch` configuration option (`"cheri"` or `"mips64"`). -/

structure CrossCompileProject where
  target : String
  targetArch : String
  linker : String
  linkDynamic : Bool
  noUseMxgot : Bool
  sdkDir : PyPath
  installDir : PyPath
  installPrefix : PyPath
  destdir : PyPath
  targetTriple : String
  sdkBinDir : PyPath
  sdkSysroot : PyPath
  compilerDir : PyPath
  COMMON_FLAGS : List String
  CFLAGS : List String
  CXXFLAGS : List String
  ASMFLAGS : List String
  warningFlags : List String
  optimizationFlags : List String
  deriving DecidableEq, Repr

/-- The class attribute `warningFlags` (lines 27-28). -/
def defaultWarningFlags : List String :=
  ["-Wall", "-Werror=cheri-capability-misuse", "-Werror=implicit-function-declaration",
   "-Werror=format", "-Werror=undefined-internal", "-Werror=incompatible-pointer-types"]

/-- The `COMMON_FLAGS` built by `__init__` (lines 39-43): fixed baseline,
then `-mabi=sandbox` appended when `targetArch == "cheri"`, then
`-mxgot` appended unless `noUseMxgot`. -/
def commonFlagsAfterInit (targetArch : String) (noUseMxgot : Bool) : List String :=
  let f := ["-integrated-as", "-pipe", "-msoft-float", "-G0", "-g"]
  let f := if targetArch = "cheri" then f ++ ["-mabi=sandbox"] else f
  if noUseMxgot then f else f ++ ["-mxgot"]

/-- Construction-failure outcome: `pathlib.relative_to` raising because
the install directory is outside the rootfs root (the spec's
`ConfigurationError`). -/
inductive InitError where
  | configurationError
  deriving DecidableEq, Repr

/-- `CrossCompileProject.__init__` (lines 30-46).  `rootfsDir` stands for
`BuildCHERIBSD.rootfsDir(config)`; the configuration options
(`targetArch`, `linker`, `linkDynamic`, `noUseMxgot`,
`optimizationFlags`) and the `Project` attributes (`target`,
`installDir`, `sdkDir`) are parameters. -/
def mkCrossCompileProject (target targetArch linker : String)
    (linkDynamic noUseMxgot : Bool) (optimizationFlags : List String)
    (sdkDir installDir rootfsDir : PyPath) :
    Except InitError CrossCompileProject :=
  match installDir.relativeTo rootfsDir with
  | none => .error .configurationError
  | some rel =>
    let sdkBinDir := sdkDir.child "bin"
    .ok
      { target := target
        targetArch := targetArch
        linker := linker
        linkDynamic := linkDynamic
        noUseMxgot := noUseMxgot
        sdkDir := sdkDir
        installDir := installDir
        installPrefix := ⟨true, rel.comps⟩
        destdir := rootfsDir
        targetTriple := targetArch ++ "-unknown-freebsd"
        sdkBinDir := sdkBinDir
        sdkSysroot := sdkDir.child "sysroot"
        compilerDir := sdkBinDir
        COMMON_FLAGS := commonFlagsAfterInit targetArch noUseMxgot
        CFLAGS := []
        CXXFLAGS := []
        ASMFLAGS := []
        warningFlags := defaultWarningFlags
        optimizationFlags := optimizationFlags }

/-- The `LDFLAGS` property (lines 48-57).  Note the emulation string is
selected by `self.target` (the registry name), not `self.targetArch`. -/
def CrossCompileProject.LDFLAGS (p : CrossCompileProject) : List String :=
  let emulation := if p.target = "cheri" then "elf64btsmip_cheri_fbsd" else "elf64btsmip_fbsd"
  let result := ["-Wl,-m" ++ emulation,
                 "-fuse-ld=" ++ p.linker,
                 "--sysroot=" ++ p.sdkSysroot.toStr,
                 "-B" ++ p.sdkBinDir.toStr]
  if p.linkDynamic then result else result ++ ["-static"]

/-- A concrete cross-compiled project in the capability (`cheri`)
configuration whose registry target name is `"lld"` (llvm.py line 135). -/
def exampleCheriProject : CrossCompileProject :=
  { target := "lld"
    targetArch := "cheri"
    linker := "lld"
    linkDynamic := false
    noUseMxgot := false
    sdkDir := ⟨true, ["sdk"]⟩
    installDir := ⟨true, ["rootfs", "extra", "lld-llvm"]⟩
    installPrefix := ⟨true, ["extra", "lld-llvm"]⟩
    destdir := ⟨true, ["rootfs"]⟩
    targetTriple := "cheri-unknown-freebsd"
    sdkBinDir := ⟨true, ["sdk", "bin"]⟩
    sdkSysroot := ⟨true, ["sdk", "sysroot"]⟩
    compilerDir := ⟨true, ["sdk", "bin"]⟩
    COMMON_FLAGS := commonFlagsAfterInit "cheri" false
    CFLAGS := []
    CXXFLAGS := []
    ASMFLAGS := []
    warningFlags := defaultWarningFlags
    optimizationFlags := ["-O0"] }

/-! ### Environment mappings (Python `dict`, insertion-ordered)

`configureEnvironment` is a string-keyed dict; an assignment replaces
the value in place when the key exists and appends otherwise. -/

/-- `key in env`. -/
def envHasKey (env : List (String × String)) (k : String) : Bool :=
  env.any (fun e => e.1 = k)

/-- `env[k] = v` (dict assignment). -/
def envSet (env : List (String × String)) (k v : String) : List (String × String) :=
  match env with
  | [] => [(k, v)]
  | e :: rest => if e.1 = k then (k, v) :: rest else e :: envSet rest k v

/-- `env.get(k)`. -/
def envGet (env : List (String × String)) (k : String) : Option String :=
  match env with
  | [] => none
  | e :: rest => if e.1 = k then some e.2 else envGet rest k

def isOkE {ε α : Type} : Except ε α → Bool
  | .ok _ => true
  | .error _ => false

/-! ### `CrossCompileAutotoolsProject.configure`
(crosscompileproject.py lines 131-147) -/

/-- The flags appended to `COMMON_FLAGS` at the start of `configure`
(lines 132-136): sysroot, compiler bindir, explicit target. -/
def autotoolsCommonFlags (p : CrossCompileProject) : List String :=
  p.COMMON_FLAGS ++
    ["--sysroot=" ++ p.sdkSysroot.toStr,
     "-B" ++ p.sdkBinDir.toStr,
     "-target", p.targetTriple]

/-- `CrossCompileAutotoolsProject.configure` (lines 131-147): asserts
that none of `CFLAGS`, `CXXFLAGS`, `CPPFLAGS`, `LDFLAGS` (in that code
order) pre-exists in `configureEnvironment` — a failed assertion raises
before any key is written — then writes `CC`, `CXX`, `CPPFLAGS`,
`CFLAGS`, `CXXFLAGS`, `LDFLAGS`.  The error value is the offending
key. -/
def configureAutotools (p : CrossCompileProject) (env : List (String × String)) :
    Except String (List (String × String)) :=
  let common := autotoolsCommonFlags p
  let CPPFLAGS := common ++ p.warningFlags ++ p.optimizationFlags
  if envHasKey env "CFLAGS" then .error "CFLAGS" else
  if envHasKey env "CXXFLAGS" then .error "CXXFLAGS" else
  if envHasKey env "CPPFLAGS" then .error "CPPFLAGS" else
  if envHasKey env "LDFLAGS" then .error "LDFLAGS" else
  let env := envSet env "CC" (p.compilerDir.child (p.targetTriple ++ "-clang")).toStr
  let env := envSet env "CXX" (p.compilerDir.child (p.targetTriple ++ "-clang++")).toStr
  let env := envSet env "CPPFLAGS" (String.intercalate " " CPPFLAGS)
  let env := envSet env "CFLAGS" (String.intercalate " " (CPPFLAGS ++ p.CFLAGS))
  let env := envSet env "CXXFLAGS" (String.intercalate " " (CPPFLAGS ++ p.CXXFLAGS))
  let env := envSet env "LDFLAGS" (String.intercalate " " p.LDFLAGS)
  .ok env

/-! ### `BuildLLVM.install` post-install cleanup (llvm.py lines 115-130)

The installed tree is modelled as the list of its files' relative
paths (component lists).  `glob` with `*` wildcards is a per-component
fnmatch. -/

/-- All suffixes of a character list, longest first. -/
def sufs : List Char → List (List Char)
  | [] => [[]]
  | c :: cs => (c :: cs) :: sufs cs

/-- fnmatch of one glob component against one path component
(`*` matches any run of characters). -/
def compMatch : List Char → List Char → Bool
  | [], s => s.isEmpty
  | '*' :: ps, s => (sufs s).any (fun t => compMatch ps t)
  | _ :: _, [] => false
  | p :: ps, c :: cs => decide (p = c) && compMatch ps cs

/-- A relative path matches a glob pattern when it has the pattern's
depth and every component matches. -/
def relPathMatch : List String → List String → Bool
  | [], [] => true
  | p :: ps, c :: cs => compMatch p.data c.data && relPathMatch ps cs
  | _, _ => false

/-- `installDir.glob("lib/clang/*/include/std*")`. -/
def stdIncludePattern : List String := ["lib", "clang", "*", "include", "std*"]

/-- `installDir.glob("lib/clang/*/include/limits.h")`. -/
def limitsIncludePattern : List String := ["lib", "clang", "*", "include", "limits.h"]

def isIncompatibleInclude (f : List String) : Bool :=
  relPathMatch stdIncludePattern f || relPathMatch limitsIncludePattern f

/-- `incompatibleFiles` (llvm.py lines 118-119): the matches of the
first glob followed by the matches of the second. -/
def llvmInstallIncompatibleFiles (tree : List (List String)) : List (List String) :=
  tree.filter (fun f => relPathMatch stdIncludePattern f) ++
    tree.filter (fun f => relPathMatch limitsIncludePattern f)

/-- The cleanup part of `BuildLLVM.install` (llvm.py lines 117-126):
fatal error when the globs match nothing; otherwise each matched file
is unlinked unless pretend mode is on (the pretend test sits inside the
deletion loop, after the zero-match check). -/
def llvmInstallCleanup (tree : List (List String)) (pretend : Bool) :
    Except String (List (List String)) :=
  let incompatibleFiles := llvmInstallIncompatibleFiles tree
  if incompatibleFiles.length = 0 then
    .error "Could not find incompatible builtin includes. Build system changed?"
  else
    .ok (incompatibleFiles.foldl (fun t i => if pretend then t else t.erase i) tree)

/-! ### Toolchain Template Engine
(`CrossCompileCMakeProject._prepareToolchainFile`, crosscompileproject.py
lines 90-97) -/

/-- A substitution value: a plain string (`str(value)`, e.g. a path or
the target triple) or a list of strings joined by single spaces. -/
inductive TemplateValue where
  | str (s : String)
  | list (l : List String)
  deriving DecidableEq, Repr

/-- `" ".join(value) if isinstance(value, list) else str(value)`. -/
def strval : TemplateValue → List Char
  | .str s => s.data
  | .list l => (String.intercalate " " l).data

/-- `"@" + key + "@"`. -/
def ph (k : List Char) : List Char := '@' :: (k ++ ['@'])

/-- Fuelled worker for Python `str.replace` (leftmost, non-overlapping,
replace-all); any `fuel ≥ text.length` gives the same result. -/
def replaceAllF : Nat → List Char → List Char → List Char → List Char
  | 0, _, _, t => t
  | _ + 1, _, _, [] => []
  | fuel + 1, pat, rep, c :: cs =>
    match pat, stripLead pat (c :: cs) with
    | _ :: _, some rest => rep ++ replaceAllF fuel pat rep rest
    | _, _ => c :: replaceAllF fuel pat rep cs

/-- `t.replace(pat, rep)` (the engine only uses nonempty patterns
`@key@`). -/
def replaceAll (pat rep t : List Char) : List Char :=
  replaceAllF t.length pat rep t

/-- Failure modes of the template engine: the first `assert` names the
key whose placeholder is absent; the second carries the
partially-substituted text in which an `@` remains. -/
inductive TemplateError where
  | missingKey (k : String)
  | atRemains (text : List Char)
  deriving DecidableEq, Repr

/-- `_prepareToolchainFile` (lines 90-97): for each supplied key in
order, assert `@key@` occurs in the current text and replace every
occurrence by the value; at the end assert no `@` remains and emit the
text. -/
def prepareToolchainFile : List Char → List (String × TemplateValue) →
    Except TemplateError (List Char)
  | t, [] => if occursIn ['@'] t then .error (.atRemains t) else .ok t
  | t, (k, v) :: rest =>
    if occursIn (ph k.data) t then
      prepareToolchainFile (replaceAll (ph k.data) (strval v) t) rest
    else .error (.missingKey k)

/-- The raw sequential substitution the engine performs (no checks). -/
def substAll : List Char → List (String × TemplateValue) → List Char
  | t, [] => t
  | t, (k, v) :: rest => substAll (replaceAll (ph k.data) (strval v) t) rest

/-- Canonical alternating template body: for each item, its key's
placeholder followed by the item's trailing literal segment. -/
def tailT : List (String × TemplateValue × String) → List Char
  | [] => []
  | (k, _, s) :: rest => ph k.data ++ (s.data ++ tailT rest)

/-- The corresponding fully substituted body: each item's value sits at
its placeholder's position. -/
def tailV : List (String × TemplateValue × String) → List Char
  | [] => []
  | (_, v, s) :: rest => strval v ++ (s.data ++ tailV rest)

/-- The key/value mapping supplied to the engine for a canonical
template instance. -/
def itemsKvs (items : List (String × TemplateValue × String)) :
    List (String × TemplateValue) :=
  items.map (fun it => (it.1, it.2.1))

/-- Well-formedness of a canonical template instance: pairwise distinct
`@`-free keys, `@`-free values and segments, and no segment equal to a
key. -/
def goodItems (items : List (String × TemplateValue × String)) : Prop :=
  items.Pairwise (fun a b => a.1.data ≠ b.1.data) ∧
  (∀ it ∈ items, '@' ∉ it.1.data ∧ '@' ∉ strval it.2.1 ∧ '@' ∉ it.2.2.data) ∧
  (∀ it ∈ items, ∀ it2 ∈ items, it.2.2.data ≠ it2.1.data)

end Cheribuild

namespace Cheribuild

theorem envGet_envSet_self (env : List (String × String)) (k v : String) :
    envGet (envSet env k v) k = some v := by
  induction env with
  | nil => simp [envSet, envGet]
  | cons e rest ih =>
    by_cases h : e.1 = k
    · simp [envSet, envGet, h]
    · simp [envSet, envGet, h, ih]

theorem envGet_envSet_ne (env : List (String × String)) (k k' v : String)
    (h : k' ≠ k) :
    envGet (envSet env k v) k' = envGet env k' := by
  induction env with
  | nil =>
    simp [envSet, envGet]
    exact fun hq => h hq.symm
  | cons e rest ih =>
    by_cases he : e.1 = k
    · have hk : ¬ (k = k') := fun hq => h hq.symm
      simp [envSet, envGet, he, hk]
    · by_cases he' : e.1 = k'
      · simp [envSet, envGet, he, he', h]
      · simp [envSet, envGet, he, he', ih]

/-- C3 counterexample: a caller-supplied environment that already
contains `CC` does NOT make `configure` fail — the asserts cover only
the four flag keys — and the pre-existing `CC` value is silently
overwritten with the derived compiler path. -/
theorem configure_ignores_preset_CC :
    envHasKey [("CC", "gcc")] "CC" = true ∧
    isOkE (configureAutotools exampleCheriProject [("CC", "gcc")]) = true ∧
    (configureAutotools exampleCheriProject [("CC", "gcc")]).toOption.bind
        (fun e => envGet e "CC") = some "/sdk/bin/cheri-unknown-freebsd-clang" := by
  refine ⟨by decide, by decide, by decide⟩

/-- C3 (amended): before writing, `configure` verifies that none of the
four keys `CFLAGS`, `CXXFLAGS`, `CPPFLAGS`, `LDFLAGS` is present in the
caller-supplied environment and fails fatally (before any write) when
one is; `CC` and `CXX` are not checked, and when none of the four flag
keys is present the derivation succeeds. -/
theorem configure_checks_only_flag_keys (p : CrossCompileProject)
    (env : List (String × String)) :
    ((envHasKey env "CFLAGS" || envHasKey env "CXXFLAGS" ||
      envHasKey env "CPPFLAGS" || envHasKey env "LDFLAGS") = true →
      isOkE (configureAutotools p env) = false) ∧
    ((envHasKey env "CFLAGS" || envHasKey env "CXXFLAGS" ||
      envHasKey env "CPPFLAGS" || envHasKey env "LDFLAGS") = false →
      isOkE (configureAutotools p env) = true) := by
  unfold configureAutotools
  constructor <;> intro h <;>
    by_cases h1 : envHasKey env "CFLAGS" = true <;>
    by_cases h2 : envHasKey env "CXXFLAGS" = true <;>
    by_cases h3 : envHasKey env "CPPFLAGS" = true <;>
    by_cases h4 : envHasKey env "LDFLAGS" = true <;>
    simp_all [isOkE]

theorem configure_checks_only_flag_keys_witness :
    isOkE (configureAutotools exampleCheriProject [("LDFLAGS", "-L/x")]) = false ∧
    isOkE (configureAutotools exampleCheriProject [("CC", "gcc"), ("PATH", "/bin")]) = true :=
  ⟨(configure_checks_only_flag_keys exampleCheriProject [("LDFLAGS", "-L/x")]).1 (by decide),
   (configure_checks_only_flag_keys exampleCheriProject
      [("CC", "gcc"), ("PATH", "/bin")]).2 (by decide)⟩

/-- C7: in the configure-style build path the sysroot, bindir and
explicit-target flags are appended to COMMON; the preprocessor flag
list is COMMON ++ warning-policy ++ optimization flags in that order;
`CFLAGS`/`CXXFLAGS` are the preprocessor flags followed by the
project's extra C/C++ flags; and each environment value is the
corresponding list joined with single spaces in that order. -/
theorem autotoolsConfigure_environment (p : CrossCompileProject)
    (env : List (String × String))
    (h1 : envHasKey env "CFLAGS" = false) (h2 : envHasKey env "CXXFLAGS" = false)
    (h3 : envHasKey env "CPPFLAGS" = false) (h4 : envHasKey env "LDFLAGS" = false) :
    ∃ envOut, configureAutotools p env = .ok envOut ∧
      envGet envOut "CPPFLAGS" = some (String.intercalate " "
        (p.COMMON_FLAGS ++
          ["--sysroot=" ++ p.sdkSysroot.toStr, "-B" ++ p.sdkBinDir.toStr,
           "-target", p.targetTriple] ++ p.warningFlags ++ p.optimizationFlags)) ∧
      envGet envOut "CFLAGS" = some (String.intercalate " "
        (p.COMMON_FLAGS ++
          ["--sysroot=" ++ p.sdkSysroot.toStr, "-B" ++ p.sdkBinDir.toStr,
           "-target", p.targetTriple] ++ p.warningFlags ++ p.optimizationFlags ++
          p.CFLAGS)) ∧
      envGet envOut "CXXFLAGS" = some (String.intercalate " "
        (p.COMMON_FLAGS ++
          ["--sysroot=" ++ p.sdkSysroot.toStr, "-B" ++ p.sdkBinDir.toStr,
           "-target", p.targetTriple] ++ p.warningFlags ++ p.optimizationFlags ++
          p.CXXFLAGS)) ∧
      envGet envOut "LDFLAGS" = some (String.intercalate " " p.LDFLAGS) ∧
      envGet envOut "CC" = some (p.compilerDir.child (p.targetTriple ++ "-clang")).toStr ∧
      envGet envOut "CXX" = some (p.compilerDir.child (p.targetTriple ++ "-clang++")).toStr := by
  unfold configureAutotools autotoolsCommonFlags
  simp only [h1, h2, h3, h4, Bool.false_eq_true, if_false]
  refine ⟨_, rfl, ?_, ?_, ?_, ?_, ?_, ?_⟩ <;>
    simp [envGet_envSet_self, envGet_envSet_ne]

theorem autotoolsConfigure_environment_witness :
    ∃ envOut, configureAutotools exampleCheriProject [] = .ok envOut ∧
      envGet envOut "CPPFLAGS" = some (String.intercalate " "
        (exampleCheriProject.COMMON_FLAGS ++
          ["--sysroot=" ++ exampleCheriProject.sdkSysroot.toStr,
           "-B" ++ exampleCheriProject.sdkBinDir.toStr,
           "-target", exampleCheriProject.targetTriple] ++
          exampleCheriProject.warningFlags ++
          exampleCheriProject.optimizationFlags)) ∧
      envGet envOut "CFLAGS" = some (String.intercalate " "
        (exampleCheriProject.COMMON_FLAGS ++
          ["--sysroot=" ++ exampleCheriProject.sdkSysroot.toStr,
           "-B" ++ exampleCheriProject.sdkBinDir.toStr,
           "-target", exampleCheriProject.targetTriple] ++
          exampleCheriProject.warningFlags ++
          exampleCheriProject.optimizationFlags ++
          exampleCheriProject.CFLAGS)) ∧
      envGet envOut "CXXFLAGS" = some (String.intercalate " "
        (exampleCheriProject.COMMON_FLAGS ++
          ["--sysroot=" ++ exampleCheriProject.sdkSysroot.toStr,
           "-B" ++ exampleCheriProject.sdkBinDir.toStr,
           "-target", exampleCheriProject.targetTriple] ++
          exampleCheriProject.warningFlags ++
          exampleCheriProject.optimizationFlags ++
          exampleCheriProject.CXXFLAGS)) ∧
      envGet envOut "LDFLAGS" = some (String.intercalate " " exampleCheriProject.LDFLAGS) ∧
      envGet envOut "CC" = some (exampleCheriProject.compilerDir.child
        (exampleCheriProject.targetTriple ++ "-clang")).toStr ∧
      envGet envOut "CXX" = some (exampleCheriProject.compilerDir.child
        (exampleCheriProject.targetTriple ++ "-clang++")).toStr :=
  autotoolsConfigure_environment exampleCheriProject []
    (by decide) (by decide) (by decide) (by decide)

/-- C1: for the probe `"clang version 3.9"` the pattern matches with the
patch group absent, and the gate crashes with a `TypeError`
(`int(None)`) instead of parsing `(3,9,0)` and returning satisfied:
the missing patch component is not treated as 0. -/
theorem checkClangVersion_crashes_on_two_component_version :
    searchClangVersion "clang version 3.9".data = some (3, 9, none) ∧
    checkClangVersion true "clang version 3.9" 3 7 0 = .typeErrorCrash ∧
    versionTupleLt (3, 9, 0) (3, 7, 0) = false := by
  refine ⟨by decide, by decide, by decide⟩

/-- C9: whenever the version pattern has no match in the probe text, the
found version is treated as `(0,0,0)`, and for any required version
greater than `(0,0,0)` the gate reports a too-old dependency failure
(no crash). -/
theorem checkClangVersion_no_match_tooOld (probe : String) (major minor patch : Nat)
    (hsearch : searchClangVersion probe.data = none)
    (hreq : versionTupleLt (0, 0, 0) (major, minor, patch) = true) :
    checkClangVersion true probe major minor patch =
      .tooOld (0, 0, 0) ("0.0.0 " ++ tooOldSuffix) clang37InstallHint := by
  unfold checkClangVersion
  rw [hsearch]
  simp only [hreq, if_true]
  decide

theorem checkClangVersion_no_match_tooOld_witness :
    checkClangVersion true "cc (GCC) 5.3.1" 3 7 0 =
      .tooOld (0, 0, 0) ("0.0.0 " ++ tooOldSuffix) clang37InstallHint :=
  checkClangVersion_no_match_tooOld "cc (GCC) 5.3.1" 3 7 0 (by decide) (by decide)

/-- C10: the linker sub-project requires clang `(3,8,0)`, strictly above
the `(3,7,0)` required by the base toolchain project: the probe
`"clang version 3.7.1"` satisfies the base project's gate but fails the
linker's gate; yet the too-old diagnostic and the remediation hint both
still speak of version 3.7 in either case. -/
theorem lld_requires_strictly_newer_clang_than_llvm :
    versionTupleLt (3, 7, 0) (3, 8, 0) = true ∧
    llvmCheckSystemDependencies true "clang version 3.7.1" = .satisfied ∧
    lldCheckSystemDependencies true "clang version 3.7.1" =
      .tooOld (3, 7, 1) ("3.7.1 " ++ tooOldSuffix) clang37InstallHint ∧
    llvmCheckSystemDependencies true "clang version 3.6.0" =
      .tooOld (3, 6, 0) ("3.6.0 " ++ tooOldSuffix) clang37InstallHint ∧
    occursIn "3.7".data tooOldSuffix.data = true ∧
    occursIn "3.7".data clang37InstallHint.data = true := by
  refine ⟨by decide, by decide, by decide, by decide, by decide, by decide⟩

/-- C2: the linker-emulation entry of `LDFLAGS` is NOT selected by the
target architecture: `LDFLAGS` is invariant under changing `targetArch`
(the property reads `self.target`, the registry name, instead), and for
a concrete capability-architecture project (registry name `"lld"`,
`targetArch = "cheri"`) the first entry is the plain
`"-Wl,-melf64btsmip_fbsd"`, not the capability emulation; the remaining
entries do follow the claimed order. -/
theorem LDFLAGS_ignores_targetArch :
    (∀ p : CrossCompileProject,
      ({ p with targetArch := "cheri" } : CrossCompileProject).LDFLAGS =
        ({ p with targetArch := "mips64" } : CrossCompileProject).LDFLAGS) ∧
    exampleCheriProject.targetArch = "cheri" ∧
    exampleCheriProject.LDFLAGS =
      ["-Wl,-melf64btsmip_fbsd", "-fuse-ld=lld", "--sysroot=/sdk/sysroot",
       "-B/sdk/bin", "-static"] := by
  refine ⟨fun p => rfl, by decide, by decide⟩

/-- C5: at construction, `installPrefix` is the install directory made
relative to the rootfs root and re-rooted at `/`; when the install
directory is not inside the rootfs root, construction fails with the
configuration error. -/
theorem crossCompileProject_installPrefix (target targetArch linker : String)
    (linkDynamic noUseMxgot : Bool) (optFlags : List String)
    (sdkDir installDir rootfsDir : PyPath) :
    (∀ rel, installDir.relativeTo rootfsDir = some rel →
      (mkCrossCompileProject target targetArch linker linkDynamic noUseMxgot optFlags
          sdkDir installDir rootfsDir).map (fun p => p.installPrefix) =
        .ok ⟨true, rel.comps⟩) ∧
    (installDir.relativeTo rootfsDir = none →
      mkCrossCompileProject target targetArch linker linkDynamic noUseMxgot optFlags
          sdkDir installDir rootfsDir = .error .configurationError) := by
  constructor
  · intro rel h
    unfold mkCrossCompileProject
    rw [h]
    rfl
  · intro h
    unfold mkCrossCompileProject
    rw [h]

theorem crossCompileProject_installPrefix_witness :
    (mkCrossCompileProject "lld" "cheri" "lld" false false ["-O0"]
        ⟨true, ["sdk"]⟩ ⟨true, ["rootfs", "extra", "lld-llvm"]⟩ ⟨true, ["rootfs"]⟩).map
        (fun p => p.installPrefix) = .ok ⟨true, ["extra", "lld-llvm"]⟩ ∧
    mkCrossCompileProject "lld" "cheri" "lld" false false ["-O0"]
        ⟨true, ["sdk"]⟩ ⟨true, ["opt", "foo"]⟩ ⟨true, ["rootfs"]⟩ =
      .error .configurationError :=
  ⟨(crossCompileProject_installPrefix "lld" "cheri" "lld" false false ["-O0"]
      ⟨true, ["sdk"]⟩ ⟨true, ["rootfs", "extra", "lld-llvm"]⟩ ⟨true, ["rootfs"]⟩).1
      ⟨false, ["extra", "lld-llvm"]⟩ (by decide),
   (crossCompileProject_installPrefix "lld" "cheri" "lld" false false ["-O0"]
      ⟨true, ["sdk"]⟩ ⟨true, ["opt", "foo"]⟩ ⟨true, ["rootfs"]⟩).2 (by decide)⟩

/-- Helper: closed form of the `COMMON_FLAGS` built by `__init__`. -/
theorem commonFlagsAfterInit_spec (a : String) (m : Bool) :
    commonFlagsAfterInit a m =
      ["-integrated-as", "-pipe", "-msoft-float", "-G0", "-g"] ++
        (if a = "cheri" then ["-mabi=sandbox"] else []) ++
        (if m then [] else ["-mxgot"]) := by
  unfold commonFlagsAfterInit
  by_cases h : a = "cheri" <;> cases m <;> simp [h]

/-- C6: after construction the COMMON flag list is the baseline, then
`-mabi=sandbox` exactly when the target architecture is `cheri` (zero
such flags otherwise), then `-mxgot` exactly when `no-use-mxgot` is not
set; disabling mxgot removes exactly that one flag. -/
theorem commonFlags_composition (target targetArch linker : String)
    (linkDynamic noUseMxgot : Bool) (optFlags : List String)
    (sdkDir installDir rootfsDir : PyPath) (rel : PyPath)
    (h : installDir.relativeTo rootfsDir = some rel) :
    (mkCrossCompileProject target targetArch linker linkDynamic noUseMxgot optFlags
        sdkDir installDir rootfsDir).map (fun p => p.COMMON_FLAGS) =
      .ok (["-integrated-as", "-pipe", "-msoft-float", "-G0", "-g"] ++
        (if targetArch = "cheri" then ["-mabi=sandbox"] else []) ++
        (if noUseMxgot then [] else ["-mxgot"])) ∧
    commonFlagsAfterInit targetArch false = commonFlagsAfterInit targetArch true ++ ["-mxgot"] ∧
    (commonFlagsAfterInit targetArch noUseMxgot).count "-mabi=sandbox" =
      (if targetArch = "cheri" then 1 else 0) ∧
    (commonFlagsAfterInit targetArch noUseMxgot).count "-mxgot" =
      (if noUseMxgot then 0 else 1) := by
  refine ⟨?_, ?_, ?_, ?_⟩
  · unfold mkCrossCompileProject
    rw [h]
    simp only [Except.map]
    rw [commonFlagsAfterInit_spec]
  · rw [commonFlagsAfterInit_spec, commonFlagsAfterInit_spec]
    by_cases ha : targetArch = "cheri" <;> simp [ha]
  · rw [commonFlagsAfterInit_spec]
    by_cases ha : targetArch = "cheri" <;> cases noUseMxgot <;> simp [ha]
  · rw [commonFlagsAfterInit_spec]
    by_cases ha : targetArch = "cheri" <;> cases noUseMxgot <;> simp [ha]

theorem commonFlags_composition_witness :
    (mkCrossCompileProject "lld" "cheri" "lld" false false ["-O0"]
        ⟨true, ["sdk"]⟩ ⟨true, ["rootfs", "extra", "lld-llvm"]⟩ ⟨true, ["rootfs"]⟩).map
        (fun p => p.COMMON_FLAGS) =
      .ok (["-integrated-as", "-pipe", "-msoft-float", "-G0", "-g"] ++
        (if ("cheri" : String) = "cheri" then ["-mabi=sandbox"] else []) ++
        (if (false : Bool) then [] else ["-mxgot"])) :=
  (commonFlags_composition "lld" "cheri" "lld" false false ["-O0"]
    ⟨true, ["sdk"]⟩ ⟨true, ["rootfs", "extra", "lld-llvm"]⟩ ⟨true, ["rootfs"]⟩
    ⟨false, ["extra", "lld-llvm"]⟩ (by decide)).1

/-- Folding a no-op over a list keeps the accumulator. -/
theorem foldl_keep {α β : Type} (m : List α) (l : β) :
    m.foldl (fun t _ => t) l = l := by
  induction m generalizing l with
  | nil => rfl
  | cons b m ih => simp only [List.foldl_cons]; exact ih l

/-- Erasing, one by one, every element of `m` from a duplicate-free
list is the same as filtering `m`'s elements out. -/
theorem foldl_erase_eq_filter (m l : List (List String))
    (hl : l.Nodup) :
    m.foldl (fun t i => t.erase i) l = l.filter (fun x => decide (x ∉ m)) := by
  induction m generalizing l with
  | nil => simp
  | cons b m ih =>
    simp only [List.foldl_cons]
    rw [ih (l.erase b) (hl.erase b), List.Nodup.erase_eq_filter hl b, List.filter_filter]
    refine List.filter_congr ?_
    intro x hx
    by_cases hb : x = b <;> by_cases hm : x ∈ m <;> simp [hb, hm]

/-- C8: the post-install cleanup fails fatally exactly when the two
fixed glob patterns match no file of the installed tree; with at least
one match it succeeds, and every matched file is deleted if and only
if pretend mode is off (in pretend mode the zero-match check still
runs and the tree is returned unchanged). -/
theorem llvmInstallCleanup_spec (tree : List (List String)) (pretend : Bool)
    (hnd : tree.Nodup) :
    (llvmInstallIncompatibleFiles tree = [] →
      llvmInstallCleanup tree pretend =
        .error "Could not find incompatible builtin includes. Build system changed?") ∧
    (llvmInstallIncompatibleFiles tree ≠ [] →
      llvmInstallCleanup tree pretend =
        .ok (if pretend then tree
             else tree.filter (fun f => !(isIncompatibleInclude f)))) ∧
    (llvmInstallIncompatibleFiles tree = [] ↔
      ∀ f ∈ tree, isIncompatibleInclude f = false) := by
  have hmem : ∀ x ∈ tree,
      (x ∈ llvmInstallIncompatibleFiles tree ↔ isIncompatibleInclude x = true) := by
    intro x hx
    unfold llvmInstallIncompatibleFiles isIncompatibleInclude
    simp [List.mem_append, List.mem_filter, hx, Bool.or_eq_true]
  refine ⟨?_, ?_, ?_⟩
  · intro h
    unfold llvmInstallCleanup
    simp [h]
  · intro h
    have hlen : ¬ (llvmInstallIncompatibleFiles tree).length = 0 := by
      simpa [List.length_eq_zero] using h
    unfold llvmInstallCleanup
    rw [if_neg hlen]
    cases pretend with
    | true => simp [foldl_keep]
    | false =>
      simp only [Bool.false_eq_true, if_false]
      rw [foldl_erase_eq_filter _ _ hnd]
      refine congrArg Except.ok ?_
      refine (List.filter_congr ?_).symm
      intro x hx
      by_cases hi : isIncompatibleInclude x = true
      · simp [hi, (hmem x hx).2 hi]
      · have : x ∉ llvmInstallIncompatibleFiles tree := fun hb => hi ((hmem x hx).1 hb)
        simp at hi
        simp [hi, this]
  · unfold llvmInstallIncompatibleFiles
    rw [List.append_eq_nil]
    simp only [List.filter_eq_nil_iff]
    constructor
    · rintro ⟨h1, h2⟩ f hf
      have e1 := h1 f hf
      have e2 := h2 f hf
      simp only [Bool.not_eq_true] at e1 e2
      simp [isIncompatibleInclude, e1, e2]
    · intro h
      constructor <;> intro f hf <;>
        · have := h f hf
          simp only [isIncompatibleInclude, Bool.or_eq_false_iff] at this
          simp [this.1, this.2]

theorem llvmInstallCleanup_spec_witness :
    llvmInstallCleanup
        [["lib", "clang", "3.7.0", "include", "stddef.h"], ["bin", "clang"]] false =
      .ok (if false then
            [["lib", "clang", "3.7.0", "include", "stddef.h"], ["bin", "clang"]]
          else
            ([["lib", "clang", "3.7.0", "include", "stddef.h"],
              ["bin", "clang"]]).filter (fun f => !(isIncompatibleInclude f))) ∧
    llvmInstallCleanup
        [["lib", "clang", "3.7.0", "include", "stddef.h"], ["bin", "clang"]] true =
      .ok (if true then
            [["lib", "clang", "3.7.0", "include", "stddef.h"], ["bin", "clang"]]
          else
            ([["lib", "clang", "3.7.0", "include", "stddef.h"],
              ["bin", "clang"]]).filter (fun f => !(isIncompatibleInclude f))) ∧
    llvmInstallCleanup [["bin", "clang"]] false =
      .error "Could not find incompatible builtin includes. Build system changed?" :=
  ⟨(llvmInstallCleanup_spec
      [["lib", "clang", "3.7.0", "include", "stddef.h"], ["bin", "clang"]] false
      (by decide)).2.1 (by decide),
   (llvmInstallCleanup_spec
      [["lib", "clang", "3.7.0", "include", "stddef.h"], ["bin", "clang"]] true
      (by decide)).2.1 (by decide),
   (llvmInstallCleanup_spec [["bin", "clang"]] false (by decide)).1 (by decide)⟩

/-! Lemmas about `stripLead`, `occursIn` and `replaceAll`, used to settle
the template-engine claim. -/

theorem stripLead_length : ∀ (pat s r : List Char), stripLead pat s = some r →
    r.length + pat.length = s.length := by
  intro pat
  induction pat with
  | nil =>
    intro s r h
    simp only [stripLead, Option.some.injEq] at h
    simp [h]
  | cons p ps ih =>
    intro s r h
    cases s with
    | nil => simp [stripLead] at h
    | cons c cs =>
      by_cases hc : p = c
      · simp only [stripLead, if_pos hc] at h
        have := ih cs r h
        simp only [List.length_cons]
        omega
      · simp [stripLead, hc] at h

theorem stripLead_self_append : ∀ (xs r : List Char), stripLead xs (xs ++ r) = some r := by
  intro xs r
  induction xs with
  | nil => rfl
  | cons x xs ih => simp [stripLead, ih]

theorem stripLead_closed_seg : ∀ (k0 s : List Char), '@' ∉ s →
    stripLead (k0 ++ ['@']) s = none := by
  intro k0
  induction k0 with
  | nil =>
    intro s hs
    cases s with
    | nil => rfl
    | cons c cs =>
      have hc : ¬ ('@' = c) := fun h => hs (h ▸ List.mem_cons_self c cs)
      simp [stripLead, hc]
  | cons a k0 ih =>
    intro s hs
    cases s with
    | nil => rfl
    | cons c cs =>
      by_cases hc : a = c
      · have hcs : '@' ∉ cs := fun h => hs (List.mem_cons_of_mem c h)
        simp [stripLead, hc, ih cs hcs]
      · simp [stripLead, hc]

theorem stripLead_two_keys : ∀ (k0 k1 u : List Char), '@' ∉ k0 → '@' ∉ k1 → k0 ≠ k1 →
    stripLead (k0 ++ ['@']) (k1 ++ '@' :: u) = none := by
  intro k0
  induction k0 with
  | nil =>
    intro k1 u h0 h1 hne
    cases k1 with
    | nil => exact absurd rfl hne
    | cons b k1 =>
      have hb : ¬ ('@' = b) := fun h => h1 (h ▸ List.mem_cons_self b k1)
      simp [stripLead, hb]
  | cons a k0 ih =>
    intro k1 u h0 h1 hne
    cases k1 with
    | nil =>
      have ha : ¬ (a = '@') := fun h => h0 (h ▸ List.mem_cons_self a k0)
      simp [stripLead, ha]
    | cons b k1 =>
      by_cases hab : a = b
      · have h0' : '@' ∉ k0 := fun h => h0 (List.mem_cons_of_mem a h)
        have h1' : '@' ∉ k1 := fun h => h1 (List.mem_cons_of_mem b h)
        have hne' : k0 ≠ k1 := by
          intro h
          exact hne (by rw [hab, h])
        simp [stripLead, hab, ih k1 u h0' h1' hne']
      · simp [stripLead, hab]

theorem occursIn_seg_skip : ∀ (p seg u : List Char), '@' ∉ seg →
    occursIn ('@' :: p) (seg ++ u) = occursIn ('@' :: p) u := by
  intro p seg
  induction seg with
  | nil => intro u _; rfl
  | cons c cs ih =>
    intro u h
    have hc : ¬ ('@' = c) := fun hq => h (hq ▸ List.mem_cons_self c cs)
    have h' : '@' ∉ cs := fun hq => h (List.mem_cons_of_mem c hq)
    simp [List.cons_append, occursIn, ih u h', stripLead, hc]

theorem occursIn_of_stripLead : ∀ (pat t : List Char),
    (stripLead pat t).isSome = true → occursIn pat t = true := by
  intro pat t h
  cases t with
  | nil => simpa [occursIn] using h
  | cons c cs => simp [occursIn, h]

theorem occursIn_at_placeholder : ∀ (pat seg u : List Char),
    occursIn pat (seg ++ pat ++ u) = true := by
  intro pat seg
  induction seg with
  | nil =>
    intro u
    apply occursIn_of_stripLead
    rw [List.nil_append, stripLead_self_append]
    rfl
  | cons c cs ih =>
    intro u
    rw [show ((c :: cs) ++ pat) ++ u = c :: ((cs ++ pat) ++ u) from rfl]
    simp only [occursIn]
    rw [ih u]
    simp

theorem replaceAllF_nil : ∀ (f : Nat) (pat rep : List Char),
    replaceAllF f pat rep [] = [] := by
  intro f pat rep
  cases f <;> rfl

theorem replaceAllF_fuel : ∀ (f1 : Nat) (pat rep t : List Char) (f2 : Nat),
    t.length ≤ f1 → t.length ≤ f2 →
    replaceAllF f1 pat rep t = replaceAllF f2 pat rep t := by
  intro f1
  induction f1 with
  | zero =>
    intro pat rep t f2 h1 _
    have ht : t = [] := by
      cases t with
      | nil => rfl
      | cons c cs => simp at h1
    subst ht
    simp [replaceAllF_nil]
  | succ f ih =>
    intro pat rep t f2 h1 h2
    cases t with
    | nil => simp [replaceAllF_nil]
    | cons c cs =>
      cases f2 with
      | zero => simp at h2
      | succ g =>
        have hcs1 : cs.length ≤ f := by
          simp only [List.length_cons] at h1
          omega
        have hcs2 : cs.length ≤ g := by
          simp only [List.length_cons] at h2
          omega
        cases pat with
        | nil =>
          simp only [replaceAllF]
          rw [ih [] rep cs g hcs1 hcs2]
        | cons p ps =>
          cases hs : stripLead (p :: ps) (c :: cs) with
          | none =>
            simp only [replaceAllF, hs]
            rw [ih (p :: ps) rep cs g hcs1 hcs2]
          | some rest =>
            have hr := stripLead_length (p :: ps) (c :: cs) rest hs
            have hrf : rest.length ≤ f := by
              simp only [List.length_cons] at hr
              omega
            have hrg : rest.length ≤ g := by
              simp only [List.length_cons] at hr
              omega
            simp only [replaceAllF, hs]
            rw [ih (p :: ps) rep rest g hrf hrg]

theorem replaceAll_match (pat rep : List Char) (c : Char) (cs rest : List Char)
    (hpat : pat ≠ []) (hs : stripLead pat (c :: cs) = some rest) :
    replaceAll pat rep (c :: cs) = rep ++ replaceAll pat rep rest := by
  cases pat with
  | nil => exact absurd rfl hpat
  | cons p ps =>
    have hr := stripLead_length (p :: ps) (c :: cs) rest hs
    have hle : rest.length ≤ cs.length := by
      simp only [List.length_cons] at hr
      omega
    show replaceAllF (c :: cs).length (p :: ps) rep (c :: cs) = _
    simp only [List.length_cons, replaceAllF, hs]
    rw [replaceAllF_fuel cs.length (p :: ps) rep rest rest.length hle (Nat.le_refl _)]
    rfl

theorem replaceAll_nomatch (pat rep : List Char) (c : Char) (cs : List Char)
    (hs : stripLead pat (c :: cs) = none) :
    replaceAll pat rep (c :: cs) = c :: replaceAll pat rep cs := by
  cases pat with
  | nil => simp [stripLead] at hs
  | cons p ps =>
    show replaceAllF (c :: cs).length (p :: ps) rep (c :: cs) = _
    simp only [List.length_cons, replaceAllF, hs]
    rfl

theorem replaceAll_no_occurrence (pat rep : List Char) :
    ∀ (t : List Char), occursIn pat t = false → replaceAll pat rep t = t := by
  intro t
  induction t with
  | nil => intro _; rfl
  | cons c cs ih =>
    intro h
    simp only [occursIn, Bool.or_eq_false_iff] at h
    obtain ⟨h1, h2⟩ := h
    have hs : stripLead pat (c :: cs) = none := by
      cases hq : stripLead pat (c :: cs) with
      | none => rfl
      | some r => rw [hq] at h1; simp at h1
    rw [replaceAll_nomatch pat rep c cs hs, ih h2]

theorem replaceAll_at_segment (p rep : List Char) :
    ∀ (seg u : List Char), '@' ∉ seg →
    replaceAll ('@' :: p) rep (seg ++ ('@' :: p) ++ u) =
      seg ++ (rep ++ replaceAll ('@' :: p) rep u) := by
  intro seg
  induction seg with
  | nil =>
    intro u _
    have hs : stripLead ('@' :: p) ('@' :: (p ++ u)) = some u := by
      have := stripLead_self_append ('@' :: p) u
      simpa using this
    simp only [List.nil_append, List.cons_append]
    rw [replaceAll_match ('@' :: p) rep '@' (p ++ u) u (by simp) hs]
  | cons c cs ih =>
    intro u h
    have hc : ¬ ('@' = c) := fun hq => h (hq ▸ List.mem_cons_self c cs)
    have h' : '@' ∉ cs := fun hq => h (List.mem_cons_of_mem c hq)
    have hs : stripLead ('@' :: p) (c :: ((cs ++ ('@' :: p)) ++ u)) = none := by
      simp [stripLead, hc]
    have e : ((c :: cs) ++ ('@' :: p)) ++ u = c :: ((cs ++ ('@' :: p)) ++ u) := rfl
    rw [e, replaceAll_nomatch _ _ _ _ hs, ih u h']
    rfl

/-- In a canonical template body none of whose keys is `k0`, none of
whose segments equals `k0`, and whose keys and segments are `@`-free,
the placeholder of `k0` does not occur. -/
theorem occursIn_tailT (k0 : List Char) (hk0 : '@' ∉ k0) :
    ∀ (items : List (String × TemplateValue × String)),
      (∀ it ∈ items,
        it.1.data ≠ k0 ∧ '@' ∉ it.1.data ∧ '@' ∉ it.2.2.data ∧ it.2.2.data ≠ k0) →
      occursIn (ph k0) (tailT items) = false := by
  intro items
  induction items with
  | nil =>
    intro _
    show occursIn ('@' :: (k0 ++ ['@'])) [] = false
    simp [occursIn, stripLead]
  | cons it rest ih =>
    intro hall
    obtain ⟨k1, v1, s1⟩ := it
    obtain ⟨hne, hk1, hs1, hs1k⟩ := hall (k1, v1, s1) (List.mem_cons_self _ _)
    have hrest : ∀ it ∈ rest,
        it.1.data ≠ k0 ∧ '@' ∉ it.1.data ∧ '@' ∉ it.2.2.data ∧ it.2.2.data ≠ k0 :=
      fun it hit => hall it (List.mem_cons_of_mem _ hit)
    have e1 : tailT ((k1, v1, s1) :: rest) =
        '@' :: (k1.data ++ ('@' :: (s1.data ++ tailT rest))) := by
      show ph k1.data ++ (s1.data ++ tailT rest) = _
      simp [ph]
    rw [e1]
    simp only [occursIn]
    have e2 : stripLead (ph k0)
        ('@' :: (k1.data ++ ('@' :: (s1.data ++ tailT rest)))) = none := by
      show stripLead ('@' :: (k0 ++ ['@'])) _ = none
      simp only [stripLead, if_pos]
      exact stripLead_two_keys k0 k1.data _ hk0 hk1 (fun h => hne h.symm)
    rw [e2]
    have e3 : occursIn (ph k0) (k1.data ++ ('@' :: (s1.data ++ tailT rest))) =
        occursIn (ph k0) ('@' :: (s1.data ++ tailT rest)) :=
      occursIn_seg_skip (k0 ++ ['@']) k1.data _ hk1
    rw [e3]
    simp only [occursIn]
    have e4 : stripLead (ph k0) ('@' :: (s1.data ++ tailT rest)) = none := by
      show stripLead ('@' :: (k0 ++ ['@'])) _ = none
      simp only [stripLead, if_pos]
      cases rest with
      | nil =>
        show stripLead (k0 ++ ['@']) (s1.data ++ tailT []) = none
        simp only [tailT, List.append_nil]
        exact stripLead_closed_seg k0 s1.data hs1
      | cons it2 r2 =>
        obtain ⟨k2, v2, s2⟩ := it2
        have e5 : s1.data ++ tailT ((k2, v2, s2) :: r2) =
            s1.data ++ '@' :: ((k2.data ++ ['@']) ++ (s2.data ++ tailT r2)) := by
          show s1.data ++ (ph k2.data ++ (s2.data ++ tailT r2)) = _
          simp [ph]
        rw [e5]
        exact stripLead_two_keys k0 s1.data _ hk0 hs1 (fun h => hs1k h.symm)
    rw [e4]
    have e6 : occursIn (ph k0) (s1.data ++ tailT rest) =
        occursIn (ph k0) (tailT rest) :=
      occursIn_seg_skip (k0 ++ ['@']) s1.data _ hs1
    simp only [Option.isSome_none, Bool.false_or]
    rw [e6, ih hrest]

/-- On a canonical well-formed template instance the engine succeeds
and produces the segments with each value at its placeholder's
position. -/
theorem prepare_canonical :
    ∀ (items : List (String × TemplateValue × String)) (s0 : List Char),
      '@' ∉ s0 → goodItems items →
      prepareToolchainFile (s0 ++ tailT items) (itemsKvs items) =
        .ok (s0 ++ tailV items) := by
  intro items
  induction items with
  | nil =>
    intro s0 h0 _
    have hocc : occursIn ['@'] s0 = false := by
      have := occursIn_seg_skip [] s0 [] h0
      simpa [occursIn, stripLead] using this
    simp [tailT, tailV, itemsKvs, prepareToolchainFile, hocc]
  | cons it rest ih =>
    intro s0 h0 hg
    obtain ⟨k, v, s⟩ := it
    obtain ⟨hpw, hfree, hseg⟩ := hg
    have hkfree : '@' ∉ k.data := (hfree _ (List.mem_cons_self _ _)).1
    have hvfree : '@' ∉ strval v := (hfree _ (List.mem_cons_self _ _)).2.1
    have hsfree : '@' ∉ s.data := (hfree _ (List.mem_cons_self _ _)).2.2
    have etail : s0 ++ tailT ((k, v, s) :: rest) =
        (s0 ++ ph k.data) ++ (s.data ++ tailT rest) := by
      show s0 ++ (ph k.data ++ (s.data ++ tailT rest)) = _
      simp
    have hocc : occursIn (ph k.data) (s0 ++ tailT ((k, v, s) :: rest)) = true := by
      rw [etail]
      exact occursIn_at_placeholder (ph k.data) s0 (s.data ++ tailT rest)
    have hnotail : occursIn ('@' :: (k.data ++ ['@'])) (s.data ++ tailT rest) = false := by
      have havoid : ∀ it ∈ rest, it.1.data ≠ k.data ∧ '@' ∉ it.1.data ∧
          '@' ∉ it.2.2.data ∧ it.2.2.data ≠ k.data := by
        intro it hit
        refine ⟨?_, (hfree it (List.mem_cons_of_mem _ hit)).1,
          (hfree it (List.mem_cons_of_mem _ hit)).2.2, ?_⟩
        · have := (List.pairwise_cons.mp hpw).1 it hit
          exact fun h => this h.symm
        · exact hseg it (List.mem_cons_of_mem _ hit) (k, v, s) (List.mem_cons_self _ _)
      have h1 : occursIn (ph k.data) (tailT rest) = false :=
        occursIn_tailT k.data hkfree rest havoid
      have h2 := occursIn_seg_skip (k.data ++ ['@']) s.data (tailT rest) hsfree
      rw [h2]
      exact h1
    have hocc' : occursIn (ph k.data) (s0 ++ tailT ((k, v, s) :: rest)) = true := hocc
    have hrepl : replaceAll (ph k.data) (strval v) (s0 ++ tailT ((k, v, s) :: rest)) =
        (s0 ++ (strval v ++ s.data)) ++ tailT rest := by
      rw [etail]
      show replaceAll ('@' :: (k.data ++ ['@'])) (strval v)
          ((s0 ++ ('@' :: (k.data ++ ['@']))) ++ (s.data ++ tailT rest)) =
        (s0 ++ (strval v ++ s.data)) ++ tailT rest
      rw [replaceAll_at_segment (k.data ++ ['@']) (strval v) s0 (s.data ++ tailT rest) h0,
        replaceAll_no_occurrence _ _ _ hnotail]
      simp
    have hg' : goodItems rest := by
      refine ⟨(List.pairwise_cons.mp hpw).2, ?_, ?_⟩
      · intro it hit
        exact hfree it (List.mem_cons_of_mem _ hit)
      · intro it hit it2 hit2
        exact hseg it (List.mem_cons_of_mem _ hit) it2 (List.mem_cons_of_mem _ hit2)
    have h0' : '@' ∉ (s0 ++ (strval v ++ s.data)) := by
      simp only [List.mem_append]
      rintro (h | h | h)
      · exact h0 h
      · exact hvfree h
      · exact hsfree h
    have hih := ih (s0 ++ (strval v ++ s.data)) h0' hg'
    show prepareToolchainFile (s0 ++ tailT ((k, v, s) :: rest))
        ((k, v) :: itemsKvs rest) = _
    simp only [prepareToolchainFile, hocc, if_true, hrepl]
    rw [hih]
    show _ = Except.ok (s0 ++ (strval v ++ (s.data ++ tailV rest)))
    simp

/-- When the engine reports a remaining `@`, the reported text is the
fully substituted text and it does contain an `@`. -/
theorem prepare_error_atRemains :
    ∀ (kvs : List (String × TemplateValue)) (t u : List Char),
      prepareToolchainFile t kvs = .error (.atRemains u) →
      u = substAll t kvs ∧ occursIn ['@'] u = true := by
  intro kvs
  induction kvs with
  | nil =>
    intro t u h
    simp only [prepareToolchainFile] at h
    by_cases hc : occursIn ['@'] t = true
    · rw [if_pos hc] at h
      simp only [Except.error.injEq, TemplateError.atRemains.injEq] at h
      subst h
      exact ⟨rfl, hc⟩
    · rw [if_neg hc] at h
      simp at h
  | cons kv rest ih =>
    intro t u h
    obtain ⟨k, v⟩ := kv
    simp only [prepareToolchainFile] at h
    by_cases hc : occursIn (ph k.data) t = true
    · rw [if_pos hc] at h
      have := ih _ u h
      simpa [substAll] using this
    · rw [if_neg hc] at h
      simp at h

/-- When the engine succeeds, the output is the fully substituted text
and contains no `@`. -/
theorem prepare_ok :
    ∀ (kvs : List (String × TemplateValue)) (t out : List Char),
      prepareToolchainFile t kvs = .ok out →
      out = substAll t kvs ∧ occursIn ['@'] out = false := by
  intro kvs
  induction kvs with
  | nil =>
    intro t out h
    simp only [prepareToolchainFile] at h
    by_cases hc : occursIn ['@'] t = true
    · rw [if_pos hc] at h
      simp at h
    · rw [if_neg hc] at h
      simp only [Except.ok.injEq] at h
      subst h
      exact ⟨rfl, by simpa using hc⟩
  | cons kv rest ih =>
    intro t out h
    obtain ⟨k, v⟩ := kv
    simp only [prepareToolchainFile] at h
    by_cases hc : occursIn (ph k.data) t = true
    · rw [if_pos hc] at h
      have := ih _ out h
      simpa [substAll] using this
    · rw [if_neg hc] at h
      simp at h

/-- C4 counterexample: with template `"@A@"` and the key/value list
`A ↦ "@B@"`, `B ↦ "y"`, the key `B` has no placeholder `@B@` in the
template, yet the engine does not fail: substituting `A`'s value
creates `B`'s placeholder and the run succeeds with output `"y"` —
which also does not contain `A`'s substituted value.  This refutes the
claim that the engine fails whenever a supplied key has no matching
placeholder in the template (and, with it, the unconditional
placeholder-position guarantee). -/
theorem prepareToolchainFile_counterexample :
    occursIn (ph "B".data) "@A@".data = false ∧
    prepareToolchainFile "@A@".data
      [("A", .str "@B@"), ("B", .str "y")] = .ok "y".data ∧
    occursIn "@B@".data "y".data = false := by
  refine ⟨by decide, by rfl, by decide⟩

/-- C4 (amended): the engine checks each supplied key sequentially
against the partially-substituted text: it fails with an assertion
error naming the first key whose placeholder is absent at that key's
turn; after all replacements (list values joined by single spaces) it
fails carrying the fully substituted text whenever an `@` remains in
it; otherwise it succeeds with the fully substituted text, which
contains no `@`; and on a canonical template — `@`-free literal
segments alternating with the placeholders of the supplied keys in
order, with distinct `@`-free keys, `@`-free values, and no segment
equal to a key — the output is the segments with each substituted
value at its placeholder's position. -/
theorem prepareToolchainFile_spec :
    (∀ (t : List Char) (k : String) (v : TemplateValue)
        (rest : List (String × TemplateValue)),
      occursIn (ph k.data) t = false →
      prepareToolchainFile t ((k, v) :: rest) = .error (.missingKey k)) ∧
    (∀ (kvs : List (String × TemplateValue)) (t u : List Char),
      prepareToolchainFile t kvs = .error (.atRemains u) →
      u = substAll t kvs ∧ occursIn ['@'] u = true) ∧
    (∀ (kvs : List (String × TemplateValue)) (t out : List Char),
      prepareToolchainFile t kvs = .ok out →
      out = substAll t kvs ∧ occursIn ['@'] out = false) ∧
    (∀ (items : List (String × TemplateValue × String)) (s0 : List Char),
      '@' ∉ s0 → goodItems items →
      prepareToolchainFile (s0 ++ tailT items) (itemsKvs items) =
        .ok (s0 ++ tailV items)) := by
  refine ⟨?_, prepare_error_atRemains, prepare_ok, prepare_canonical⟩
  intro t k v rest h
  simp only [prepareToolchainFile, h]
  simp

theorem prepareToolchainFile_spec_witness :
    prepareToolchainFile "set(X @A@ @B@)".data [("C", .str "z")] =
      .error (.missingKey "C") ∧
    prepareToolchainFile ("set(X ".data ++
        tailT [("A", .str "x", " "), ("B", .list ["y", "z"], ")")])
      (itemsKvs [("A", .str "x", " "), ("B", .list ["y", "z"], ")")]) =
      .ok ("set(X ".data ++ tailV [("A", .str "x", " "), ("B", .list ["y", "z"], ")")]) :=
  ⟨prepareToolchainFile_spec.1 "set(X @A@ @B@)".data "C" (.str "z") [] (by decide),
   prepareToolchainFile_spec.2.2.2 [("A", .str "x", " "), ("B", .list ["y", "z"], ")")]
     "set(X ".data (by decide) (by unfold goodItems; decide)⟩

end Cheribuild
